import Mathlib

/-!
Verification of `.github/scripts/validate_patch.py`: the patch-header
parser (`parse_header`) and validator (`validate_patch_file`, `main`).

Modelling conventions:
* A file's text is the list of its lines as produced by `readlines`, with
  the trailing newline of each line removed (the script applies
  `rstrip("\x6e")`-style stripping before any content test, so the two
  representations behave identically; text-mode reading translates all
  line endings, so lines never contain interior newline or carriage
  return characters).
* Python's `dict` is an association list in insertion order where
  assignment to an existing key overwrites in place.
* Character classes of the script's regular expressions are modelled over
  their ASCII meaning, which covers every input the validation rules
  speak about.
-/

namespace ValidatePatch

/-- Python whitespace for `str.strip` and the regex class `\s` (ASCII part). -/
def isSpc (c : Char) : Bool :=
  c == ' ' || c == '\t' || c == '\n' || c == '\r' || c == '\x0b' || c == '\x0c'

/-- ASCII letter, the regex class `[A-Za-z]`. -/
def isAsciiLetter (c : Char) : Bool :=
  ('A' ≤ c && c ≤ 'Z') || ('a' ≤ c && c ≤ 'z')

/-- ASCII letter or digit, the regex class `[A-Za-z0-9]`. -/
def isAlnumAscii (c : Char) : Bool :=
  isAsciiLetter c || c.isDigit

/-- Remove the trailing run of whitespace characters. -/
def trimR : List Char → List Char
  | [] => []
  | c :: cs =>
    match trimR cs with
    | [] => if isSpc c then [] else [c]
    | x :: xs => c :: x :: xs

/-- Remove leading and trailing whitespace: Python `str.strip()` on the
underlying character list. -/
def stripL (l : List Char) : List Char :=
  trimR (l.dropWhile isSpc)

/-- Python `str.strip()`. -/
def pyStrip (s : String) : String :=
  ⟨stripL s.data⟩

/-- Python `str.lower()` restricted to ASCII letters. -/
def pyLower (s : String) : String :=
  ⟨s.data.map (fun c => if 'A' ≤ c && c ≤ 'Z' then Char.ofNat (c.toNat + 32) else c)⟩

/-- Python `"\n".join(strings)`. -/
def joinNl : List String → String
  | [] => ""
  | [s] => s
  | s :: rest => s ++ "\n" ++ joinNl rest

/-- Search for `JIRA_RE = [A-Za-z][A-Za-z0-9]+-\d+` continuing after the
leading letter: consume the (necessarily maximal) alphanumeric run, then
require a hyphen followed by a digit.  `seen` records whether at least one
alphanumeric character followed the leading letter. -/
def jiraAfter : Bool → List Char → Bool
  | _, [] => false
  | seen, c :: rest =>
    if isAlnumAscii c then jiraAfter true rest
    else if c == '-' && seen then
      match rest with
      | d :: _ => d.isDigit
      | [] => false
    else false

/-- Does `JIRA_RE` match starting at some position of the list
(`re.search` semantics)? -/
def jiraSearchL : List Char → Bool
  | [] => false
  | c :: rest => (isAsciiLetter c && jiraAfter false rest) || jiraSearchL rest

/-- Python `JIRA_RE.search(s) is not None`. -/
def jiraSearch (s : String) : Bool :=
  jiraSearchL s.data

/-- The diff-boundary test `re.match(r'^(diff |\+\+\+ |--- |@@ )', line)`. -/
def isBoundary (s : String) : Bool :=
  "diff ".data.isPrefixOf s.data || "+++ ".data.isPrefixOf s.data ||
  "--- ".data.isPrefixOf s.data || "@@ ".data.isPrefixOf s.data

/-- The header-field test `re.match(r'^([A-Za-z]+):\s*(.*)$', line)`:
a maximal non-empty run of letters, a colon, then the rest of the line
with leading whitespace removed (the groups of the regex). -/
def parseFieldLine (s : String) : Option (String × String) :=
  match s.data.dropWhile isAsciiLetter with
  | ':' :: rest =>
    if (s.data.takeWhile isAsciiLetter).isEmpty then none
    else some (⟨s.data.takeWhile isAsciiLetter⟩, ⟨rest.dropWhile isSpc⟩)
  | _ => none

/-- A string that can occur as the content of a single line read in text
mode: it carries no newline or carriage return (text-mode reading
translates every line ending before `readlines` splits). -/
def lineSafe (s : String) : Prop :=
  ('\n' ∈ s.data → False) ∧ ('\r' ∈ s.data → False)

instance (s : String) : Decidable (lineSafe s) :=
  inferInstanceAs (Decidable (_ ∧ _))

/-- Python dict assignment `d[k] = v`: overwrite in place when the key is
present, append otherwise. -/
def dictInsert (d : List (String × String)) (k v : String) : List (String × String) :=
  if d.any (fun p => p.1 == k) then
    d.map (fun p => if p.1 == k then (k, v) else p)
  else d ++ [(k, v)]

/-- Python `k in d` / `d.get(k)` lookup. -/
def dictGet (d : List (String × String)) (k : String) : Option String :=
  (d.find? (fun p => p.1 == k)).map (fun p => p.2)

/-- The description-continuation loop of `parse_header`: collect following
lines until a blank line or a diff boundary. -/
def collectDesc : List String → List String
  | [] => []
  | ln :: rest =>
    if isBoundary ln || pyStrip ln == "" then []
    else ln :: collectDesc rest

/-- The main loop of `parse_header`, with a fuel argument for structural
recursion.  Every iteration consumes at least one line, so fuel equal to
the number of lines is always sufficient; the fuel-exhausted case is never
reached from `parseHeaderFuel`.  Returns the accumulated fields together
with the number of consumed lines, which is the loop index `i` at exit
(the cursor where the diff body starts). -/
def parseLoop : Nat → List (String × String) → List String → List String →
    List (String × String) × Nat
  | 0, fields, _, _ => (fields, 0)
  | _ + 1, fields, _, [] => (fields, 0)
  | fuel + 1, fields, descLines, line :: rest =>
    if pyStrip line == "" then
      match rest with
      | [] => (fields, 1)
      | next :: _ =>
        if isBoundary next then (fields, 1)
        else
          let r := parseLoop fuel fields descLines rest
          (r.1, r.2 + 1)
    else
      match parseFieldLine line with
      | some (key, value) =>
        if key == "Description" then
          let collected := collectDesc rest
          let descLines2 := descLines ++ (if value == "" then [] else [value]) ++ collected
          let fields2 := dictInsert fields "Description"
            (pyStrip (joinNl (descLines2.map pyStrip)))
          let r := parseLoop fuel fields2 descLines2 (rest.drop collected.length)
          (r.1, r.2 + 1 + collected.length)
        else
          let r := parseLoop fuel (dictInsert fields key (pyStrip value)) descLines rest
          (r.1, r.2 + 1)
      | none =>
        if isBoundary line then (fields, 0)
        else
          let r := parseLoop fuel fields descLines rest
          (r.1, r.2 + 1)

/-- Run the `parse_header` loop with sufficient fuel, yielding the field
mapping and the cursor index. -/
def parseHeaderFuel (lines : List String) : List (String × String) × Nat :=
  parseLoop lines.length [] [] lines

/-- The source's `parse_header`: fields plus the remaining lines
`lines[i:]`. -/
def parse_header (lines : List String) : List (String × String) × List String :=
  ((parseHeaderFuel lines).1, lines.drop (parseHeaderFuel lines).2)

/-- The field mapping produced by `parse_header`. -/
def parseFields (lines : List String) : List (String × String) :=
  (parseHeaderFuel lines).1

/-- The loop index `i` at which `parse_header` stopped (start of the diff
body). -/
def parseCursor (lines : List String) : Nat :=
  (parseHeaderFuel lines).2

/-- The required header fields, in the order the validator checks them. -/
def REQUIRED_KEYS : List String :=
  ["JIRA", "Upstream", "Title", "Author", "Date", "Description"]

/-- Violation message for the empty-file check. -/
def emptyMsg : String := "Empty file"

/-- Violation message for a missing or empty required field. -/
def missingMsg (key : String) : String :=
  "Missing or empty required header field: " ++ key

/-- Violation message for a JIRA value without a ticket key. -/
def jiraMsg (v : String) : String :=
  "JIRA field does not contain a valid ticket key: '" ++ v ++ "'"

/-- Violation message for a bad Upstream value; `fields.get('Upstream')`
interpolates as the Python literal `None` when the field is absent. -/
def upstreamMsg (v : Option String) : String :=
  "Upstream field must be 'yes' or 'no', got: '" ++
    (match v with | some s => s | none => "None") ++ "'"

/-- Violation message for a too-short description. -/
def descMsg : String :=
  "Description must be at least 20 characters and explain the rationale and upstream status."

/-- The body of the required-keys loop: `key not in fields or not
fields[key].strip()` yields the missing-field message. -/
def missingCheck (fields : List (String × String)) (key : String) : Option String :=
  match dictGet fields key with
  | none => some (missingMsg key)
  | some v => if pyStrip v == "" then some (missingMsg key) else none

/-- The required-keys loop of `validate_patch_file`. -/
def missingErrors (fields : List (String × String)) : List String :=
  REQUIRED_KEYS.filterMap (missingCheck fields)

/-- The JIRA-format check of `validate_patch_file`. -/
def jiraErrors (fields : List (String × String)) : List String :=
  let jira := (dictGet fields "JIRA").getD ""
  if jira == "" then []
  else if jiraSearch jira then []
  else [jiraMsg jira]

/-- The Upstream-value check of `validate_patch_file`. -/
def upstreamErrors (fields : List (String × String)) : List String :=
  let upstream := pyLower ((dictGet fields "Upstream").getD "")
  if upstream == "yes" || upstream == "no" then []
  else [upstreamMsg (dictGet fields "Upstream")]

/-- The description-length check of `validate_patch_file`. -/
def descErrors (fields : List (String × String)) : List String :=
  let desc := (dictGet fields "Description").getD ""
  if (pyStrip desc).length < 20 then [descMsg] else []

/-- The source's `validate_patch_file`, over the lines read from the file. -/
def validate_patch_file (lines : List String) : List String :=
  if lines.isEmpty then [emptyMsg]
  else
    let fields := (parse_header lines).1
    missingErrors fields ++ jiraErrors fields ++ upstreamErrors fields ++ descErrors fields

/-- The `overall_failed` accumulator of `main`'s per-file loop, over the
already-read contents of each input file. -/
def overallFailed (files : List (List String)) : Bool :=
  files.foldl (fun acc f => acc || !(validate_patch_file f).isEmpty) false

/-- The tail of `main` once the file list is resolved: `return 1` when the
list is empty ("No patch files found."), otherwise 1 or 0 from the
validation loop. -/
def runFiles (files : List (List String)) : Nat :=
  if files.isEmpty then 1
  else if overallFailed files then 1 else 0

/-- How `main` obtains its input files: explicit command-line paths
(`len(argv) > 1`), or a scan of the default `patches/` directory, which
either does not exist (`defaultDir none`) or yields the glob results. -/
inductive RunInput where
  | args (files : List (List String))
  | defaultDir (dir : Option (List (List String)))

/-- The file list `main` would iterate over, when input resolution
succeeds. -/
def inputFiles : RunInput → Option (List (List String))
  | RunInput.args fs => some fs
  | RunInput.defaultDir d => d

/-- The exit code of `main`: 1 when `patches/` is missing and no paths were
given, otherwise the result of `runFiles`. -/
def mainExit : RunInput → Nat
  | RunInput.args fs => runFiles fs
  | RunInput.defaultDir none => 1
  | RunInput.defaultDir (some fs) => runFiles fs

/-- Result of `path.open(...).readlines()` for one input path: `none`
models a path that cannot be opened, which raises `OSError` in the
source (decoding cannot fail, as the file is opened with
`errors='replace'`). -/
def readLinesOf : Option (List String) → Except Unit (List String)
  | none => Except.error ()
  | some ls => Except.ok ls

/-- The per-file loop of `main` including the file reads, one entry per
input path, each given as `some lines` (readable) or `none` (unreadable).
`validate_patch_file` opens its file with no exception handler and `main`
has none either, so a failing open propagates: the loop stops at the first
unreadable path and the run produces no per-file results at all. -/
def mainLoopRead : List (Option (List String)) → Except Unit (List (List String))
  | [] => Except.ok []
  | c :: rest =>
    match readLinesOf c with
    | Except.error e => Except.error e
    | Except.ok lines =>
      match mainLoopRead rest with
      | Except.error e => Except.error e
      | Except.ok results => Except.ok (validate_patch_file lines :: results)

end ValidatePatch

namespace ValidatePatch

/-- C8: a zero-byte input file (whose `readlines` is the empty list)
produces exactly the single violation "Empty file"; no other check runs. -/
theorem c8_empty_file : validate_patch_file ([] : List String) = ["Empty file"] := rfl

/-- C1 counterexample: on the one-line file `diff --git a/x b/x` the
validator returns eight violations, not six — besides the six
missing-field messages it also emits the upstream-value violation (with
the Python `None` rendering) and the description-length violation,
because those two checks run on the empty default even when the field is
absent. -/
theorem c1_counterexample :
    (validate_patch_file ["diff --git a/x b/x"]).length = 8 ∧
    ¬ (validate_patch_file ["diff --git a/x b/x"]).length = 6 ∧
    upstreamMsg none ∈ validate_patch_file ["diff --git a/x b/x"] ∧
    descMsg ∈ validate_patch_file ["diff --git a/x b/x"] := by
  decide

/-- C1 amended: a file whose content is exactly the single line
`diff --git a/x b/x` produces exactly eight violations: one
missing-field message per required field, then the upstream-value
violation (reporting the absent value as `None`) and the
description-length violation; no ticket-format violation is emitted,
since that check alone is guarded on the field being present. -/
theorem c1_amended :
    validate_patch_file ["diff --git a/x b/x"] =
      [missingMsg "JIRA", missingMsg "Upstream", missingMsg "Title", missingMsg "Author",
       missingMsg "Date", missingMsg "Description", upstreamMsg none, descMsg] := by
  decide

/-- C3 counterexample: the multi-violation header yields three violations
in total, not five as the claim counts. -/
theorem c3_counterexample :
    ¬ (validate_patch_file ["JIRA: nottickets", "Upstream: sure", "Title: Some title",
        "Author: Someone", "Date: 2024-01-02", "Description: short",
        "diff --git a/x b/x"]).length = 5 := by
  decide

/-- C3 amended: a header with `JIRA: nottickets`, `Upstream: sure`,
`Description: short` and non-empty Title, Author and Date produces
exactly the three format/value violations (ticket shape, upstream value,
description length) and zero missing-field violations — three total. -/
theorem c3_amended :
    validate_patch_file ["JIRA: nottickets", "Upstream: sure", "Title: Some title",
        "Author: Someone", "Date: 2024-01-02", "Description: short",
        "diff --git a/x b/x"] =
      [jiraMsg "nottickets", upstreamMsg (some "sure"), descMsg] := by
  decide

/-- C2 counterexample: with a readable file followed by an unreadable path
followed by another file, the run raises (models the uncaught `OSError`)
and produces no per-file results at all — the failure is not recorded as
a violation and the remaining file is never processed. -/
theorem c2_counterexample :
    mainLoopRead [some ["diff --git a/x b/x"], none, some []] = Except.error () := rfl

/-- C2 amended: if any given path cannot be opened, the exception
propagates out of the per-file loop: the whole run aborts with no
per-file results, instead of recording the failure as a violation and
continuing with the remaining files. -/
theorem c2_amended (inputs : List (Option (List String))) (h : none ∈ inputs) :
    mainLoopRead inputs = Except.error () := by
  induction inputs with
  | nil => cases h
  | cons c rest ih =>
    cases c with
    | none => rfl
    | some ls =>
      have hr : none ∈ rest := by
        cases h with
        | tail _ hm => exact hm
      simp [mainLoopRead, readLinesOf, ih hr]

/-- Witness for the amended C2 at a concrete run. -/
theorem c2_amended_witness :
    mainLoopRead [some [], none, some ["x"]] = Except.error () :=
  c2_amended [some [], none, some ["x"]] (by decide)

/-- The boolean-or fold of `main`'s failure flag equals `List.any`. -/
theorem foldl_or_any (p : List String → Bool) (fs : List (List String)) :
    ∀ acc : Bool, fs.foldl (fun a f => a || p f) acc = (acc || fs.any p) := by
  induction fs with
  | nil => intro acc; simp
  | cons f rest ih =>
    intro acc
    simp only [List.foldl_cons, List.any_cons, ih (acc || p f), Bool.or_assoc]

/-- The failure test of `main`'s loop is false exactly when every file
validates cleanly. -/
theorem validate_all_clean_iff (fs : List (List String)) :
    (fs.any fun f => !(validate_patch_file f).isEmpty) = false ↔
      ∀ f ∈ fs, validate_patch_file f = [] := by
  induction fs with
  | nil => simp
  | cons f rest ih =>
    simp only [List.any_cons, Bool.or_eq_false_iff, ih, List.mem_cons]
    constructor
    · intro ⟨h1, h2⟩ g hg
      rcases hg with rfl | hg
      · simp only [Bool.not_eq_false'] at h1
        exact List.isEmpty_iff.mp h1
      · exact h2 g hg
    · intro h
      refine ⟨?_, fun g hg => h g (Or.inr hg)⟩
      have hf := h f (Or.inl rfl)
      simp [hf]

/-- Characterization of the post-resolution exit code: 0 exactly when the
file list is non-empty and every file validates cleanly. -/
theorem runFiles_eq_zero_iff (fs : List (List String)) :
    runFiles fs = 0 ↔ (fs ≠ [] ∧ ∀ f ∈ fs, validate_patch_file f = []) := by
  cases fs with
  | nil => simp [runFiles]
  | cons f rest =>
    have h1 : runFiles (f :: rest) =
        if ((f :: rest).any fun g => !(validate_patch_file g).isEmpty) then 1 else 0 := by
      simp [runFiles, overallFailed, foldl_or_any]
    rw [h1]
    by_cases ha : ((f :: rest).any fun g => !(validate_patch_file g).isEmpty) = true
    · rw [if_pos ha]
      constructor
      · intro h; cases h
      · intro ⟨_, hall⟩
        rw [(validate_all_clean_iff (f :: rest)).mpr hall] at ha
        cases ha
    · rw [if_neg ha]
      have hfalse : ((f :: rest).any fun g => !(validate_patch_file g).isEmpty) = false :=
        Bool.eq_false_iff.mpr ha
      exact ⟨fun _ => ⟨List.cons_ne_nil f rest, (validate_all_clean_iff _).mp hfalse⟩,
             fun _ => rfl⟩

/-- The post-resolution exit code is always 0 or 1. -/
theorem runFiles_zero_or_one (fs : List (List String)) :
    runFiles fs = 0 ∨ runFiles fs = 1 := by
  unfold runFiles
  by_cases he : fs.isEmpty
  · simp [he]
  · by_cases ha : overallFailed fs <;> simp [he, ha]

/-- C9: the process exit code is always 0 or 1, and it is 0 exactly when
input resolution succeeded with a non-empty file list all of whose files
produced an empty violation list; in every other case — some file has
violations, the default directory is missing, or no patch files were
found — it is 1. -/
theorem c9_exit_code :
    ∀ inp : RunInput,
      (mainExit inp = 0 ∨ mainExit inp = 1) ∧
      (mainExit inp = 0 ↔
        ∃ fs, inputFiles inp = some fs ∧ fs ≠ [] ∧ ∀ f ∈ fs, validate_patch_file f = []) := by
  intro inp
  cases inp with
  | args fs =>
    refine ⟨runFiles_zero_or_one fs, ?_⟩
    rw [show mainExit (RunInput.args fs) = runFiles fs from rfl, runFiles_eq_zero_iff]
    constructor
    · intro ⟨h1, h2⟩; exact ⟨fs, rfl, h1, h2⟩
    · intro ⟨fs', hfs, h1, h2⟩
      cases (Option.some.injEq _ _ ▸ hfs : fs = fs')
      exact ⟨h1, h2⟩
  | defaultDir d =>
    cases d with
    | none =>
      refine ⟨Or.inr rfl, ?_⟩
      constructor
      · intro h; cases h
      · intro ⟨fs', hfs, _, _⟩; cases hfs
    | some fs =>
      refine ⟨runFiles_zero_or_one fs, ?_⟩
      rw [show mainExit (RunInput.defaultDir (some fs)) = runFiles fs from rfl,
        runFiles_eq_zero_iff]
      constructor
      · intro ⟨h1, h2⟩; exact ⟨fs, rfl, h1, h2⟩
      · intro ⟨fs', hfs, h1, h2⟩
        cases (Option.some.injEq _ _ ▸ hfs : fs = fs')
        exact ⟨h1, h2⟩

/-- Two strings with different first characters are different. -/
theorem ne_of_head (a b : String) (h : a.data.head? ≠ b.data.head?) : a ≠ b :=
  fun e => h (by rw [e])

/-- Every missing-field message starts with the letter M. -/
theorem missingMsg_head (k : String) : (missingMsg k).data.head? = some 'M' := by
  rw [missingMsg, String.data_append]; rfl

/-- Every JIRA-format message starts with the letter J. -/
theorem jiraMsg_head (v : String) : (jiraMsg v).data.head? = some 'J' := by
  rw [jiraMsg, String.data_append, String.data_append]; rfl

/-- Every Upstream-value message starts with the letter U. -/
theorem upstreamMsg_head (v : Option String) : (upstreamMsg v).data.head? = some 'U' := by
  cases v <;> rfl

/-- The description-length message starts with the letter D. -/
theorem descMsg_head : descMsg.data.head? = some 'D' := rfl

/-- Everything in `missingErrors` is a missing-field message for one of the
required keys. -/
theorem mem_missingErrors {fields : List (String × String)} {x : String}
    (h : x ∈ missingErrors fields) : ∃ k ∈ REQUIRED_KEYS, x = missingMsg k := by
  unfold missingErrors at h
  rcases List.mem_filterMap.mp h with ⟨k, hk, hfk⟩
  refine ⟨k, hk, ?_⟩
  unfold missingCheck at hfk
  split at hfk
  · exact (Option.some.inj hfk).symm
  · split at hfk
    · exact (Option.some.inj hfk).symm
    · cases hfk

/-- Everything in `jiraErrors` is the JIRA-format message for the stored
JIRA value. -/
theorem mem_jiraErrors {fields : List (String × String)} {x : String}
    (h : x ∈ jiraErrors fields) : x = jiraMsg ((dictGet fields "JIRA").getD "") := by
  unfold jiraErrors at h
  by_cases h1 : (dictGet fields "JIRA").getD "" == ""
  · rw [if_pos h1] at h; cases h
  · rw [if_neg h1] at h
    by_cases h2 : jiraSearch ((dictGet fields "JIRA").getD "")
    · rw [if_pos h2] at h; cases h
    · rw [if_neg h2] at h
      rcases List.mem_singleton.mp h with rfl
      rfl

/-- Everything in `upstreamErrors` is the Upstream-value message for the
looked-up Upstream entry. -/
theorem mem_upstreamErrors {fields : List (String × String)} {x : String}
    (h : x ∈ upstreamErrors fields) : x = upstreamMsg (dictGet fields "Upstream") := by
  unfold upstreamErrors at h
  by_cases h1 : (pyLower ((dictGet fields "Upstream").getD "") == "yes" ||
      pyLower ((dictGet fields "Upstream").getD "") == "no")
  · rw [if_pos h1] at h; cases h
  · rw [if_neg h1] at h
    rcases List.mem_singleton.mp h with rfl
    rfl

/-- Membership of the description message in `descErrors` is exactly the
length test. -/
theorem descMsg_mem_descErrors (fields : List (String × String)) :
    (descMsg ∈ descErrors fields ↔
      (pyStrip ((dictGet fields "Description").getD "")).length < 20) := by
  unfold descErrors
  by_cases hc : (pyStrip ((dictGet fields "Description").getD "")).length < 20
  · simp [hc]
  · simp [hc]

/-- Membership of an Upstream message in `upstreamErrors` is exactly the
failed enumeration test. -/
theorem upstreamMsg_mem_upstreamErrors (fields : List (String × String)) :
    (upstreamMsg (dictGet fields "Upstream") ∈ upstreamErrors fields ↔
      ¬ (pyLower ((dictGet fields "Upstream").getD "") = "yes" ∨
         pyLower ((dictGet fields "Upstream").getD "") = "no")) := by
  unfold upstreamErrors
  by_cases h1 : (pyLower ((dictGet fields "Upstream").getD "") == "yes" ||
      pyLower ((dictGet fields "Upstream").getD "") == "no")
  · rw [if_pos h1]
    simp only [Bool.or_eq_true, beq_iff_eq] at h1
    simp [h1]
  · rw [if_neg h1]
    simp only [Bool.or_eq_true, beq_iff_eq] at h1
    simp [h1]

/-- On non-empty input, the validator's result is the concatenation of its
four checks over the parsed header. -/
theorem validate_patch_file_eq (lines : List String) (h : lines ≠ []) :
    validate_patch_file lines =
      missingErrors (parseFields lines) ++ jiraErrors (parseFields lines) ++
      upstreamErrors (parseFields lines) ++ descErrors (parseFields lines) := by
  unfold validate_patch_file
  rw [if_neg (by simp [h])]
  rfl

/-- C6: whenever the Description field is present in the parsed header,
the description-length violation is emitted exactly when the trimmed
stored value is shorter than 20 characters (so a trimmed value of exactly
20 characters passes and one of 19 characters fails). -/
theorem c6_description_length (lines : List String) (dsc : String)
    (hne : lines ≠ []) (hd : dictGet (parseFields lines) "Description" = some dsc) :
    (descMsg ∈ validate_patch_file lines ↔ (pyStrip dsc).length < 20) := by
  rw [validate_patch_file_eq lines hne]
  simp only [List.mem_append]
  constructor
  · intro h
    rcases h with ((h | h) | h) | h
    · rcases mem_missingErrors h with ⟨k, _, hk⟩
      exact absurd hk (ne_of_head _ _ (by rw [descMsg_head, missingMsg_head]; decide))
    · exact absurd (mem_jiraErrors h)
        (ne_of_head _ _ (by rw [descMsg_head, jiraMsg_head]; decide))
    · exact absurd (mem_upstreamErrors h)
        (ne_of_head _ _ (by rw [descMsg_head, upstreamMsg_head]; decide))
    · have hlen := (descMsg_mem_descErrors (parseFields lines)).mp h
      rw [hd] at hlen
      exact hlen
  · intro h
    right
    rw [descMsg_mem_descErrors (parseFields lines), hd]
    exact h

/-- Witness for C6 on a file whose description trims to 19 characters:
the description-length violation is emitted. -/
theorem c6_witness :
    (descMsg ∈ validate_patch_file ["Description: nineteen chars here", "diff --git a/x b/x"] ↔
      (pyStrip "nineteen chars here").length < 20) :=
  c6_description_length ["Description: nineteen chars here", "diff --git a/x b/x"]
    "nineteen chars here" (by decide) (by decide)

/-- Everything in `descErrors` is the description-length message. -/
theorem mem_descErrors {fields : List (String × String)} {x : String}
    (h : x ∈ descErrors fields) : x = descMsg := by
  unfold descErrors at h
  by_cases hc : (pyStrip ((dictGet fields "Description").getD "")).length < 20
  · rw [if_pos hc] at h
    exact List.mem_singleton.mp h
  · rw [if_neg hc] at h
    cases h

/-- C7: whenever the Upstream field is present in the parsed header, the
upstream-value violation — whose message carries the stored value verbatim,
not lowercased — is emitted exactly when the lowercased value is neither
"yes" nor "no" (so `YES` passes and `maybe` fails). -/
theorem c7_upstream_value (lines : List String) (v : String)
    (hne : lines ≠ []) (hu : dictGet (parseFields lines) "Upstream" = some v) :
    (upstreamMsg (some v) ∈ validate_patch_file lines ↔
      ¬ (pyLower v = "yes" ∨ pyLower v = "no")) := by
  rw [validate_patch_file_eq lines hne]
  simp only [List.mem_append]
  constructor
  · intro h
    rcases h with ((h | h) | h) | h
    · rcases mem_missingErrors h with ⟨k, _, hk⟩
      exact absurd hk (ne_of_head _ _ (by rw [upstreamMsg_head, missingMsg_head]; decide))
    · exact absurd (mem_jiraErrors h)
        (ne_of_head _ _ (by rw [upstreamMsg_head, jiraMsg_head]; decide))
    · have hiff := upstreamMsg_mem_upstreamErrors (parseFields lines)
      rw [hu] at hiff
      exact hiff.mp h
    · exact absurd (mem_descErrors h)
        (ne_of_head _ _ (by rw [upstreamMsg_head, descMsg_head]; decide))
  · intro h
    have hiff := upstreamMsg_mem_upstreamErrors (parseFields lines)
    rw [hu] at hiff
    exact Or.inl (Or.inr (hiff.mpr h))

/-- Witness for C7 on a file with `Upstream: maybe`: the violation carrying
the original value is emitted. -/
theorem c7_witness :
    (upstreamMsg (some "maybe") ∈ validate_patch_file ["Upstream: maybe", "diff --git a/x b/x"] ↔
      ¬ (pyLower "maybe" = "yes" ∨ pyLower "maybe" = "no")) :=
  c7_upstream_value ["Upstream: maybe", "diff --git a/x b/x"] "maybe" (by decide) (by decide)

/-- Dropping a satisfied prefix twice is the same as dropping it once. -/
theorem dropWhile_dropWhile (p : Char → Bool) (l : List Char) :
    (l.dropWhile p).dropWhile p = l.dropWhile p := by
  induction l with
  | nil => rfl
  | cons c cs ih =>
    by_cases h : p c
    · simp [List.dropWhile_cons, h, ih]
    · simp [List.dropWhile_cons, h]

/-- The head surviving `dropWhile` fails the predicate. -/
theorem dropWhile_head_false (p : Char → Bool) (l : List Char) (c : Char) (cs : List Char)
    (h : l.dropWhile p = c :: cs) : p c = false := by
  induction l with
  | nil => cases h
  | cons a as ih =>
    by_cases hp : p a
    · rw [List.dropWhile_cons, if_pos hp] at h
      exact ih h
    · rw [List.dropWhile_cons, if_neg hp] at h
      cases h
      exact Bool.eq_false_iff.mpr hp

/-- A singleton with a non-space element is untouched by `trimR`. -/
theorem trimR_singleton (y : Char) (h : isSpc y = false) : trimR [y] = [y] := by
  simp [trimR, h]

/-- Shape of a non-empty `trimR` result: it ends in a non-space character. -/
theorem trimR_shape (m : List Char) :
    trimR m = [] ∨ ∃ ys y, trimR m = ys ++ [y] ∧ isSpc y = false := by
  induction m with
  | nil => exact Or.inl rfl
  | cons c rest ih =>
    cases htc : trimR rest with
    | nil =>
      by_cases hc : isSpc c
      · exact Or.inl (by simp [trimR, htc, hc])
      · refine Or.inr ⟨[], c, by simp [trimR, htc, hc], Bool.eq_false_iff.mpr hc⟩
    | cons x xs =>
      rcases ih with hnil | ⟨ys, y, hys, hy⟩
      · rw [htc] at hnil; cases hnil
      · refine Or.inr ⟨c :: ys, y, ?_, hy⟩
        rw [show trimR (c :: rest) = c :: x :: xs from by simp [trimR, htc], ← htc, hys]
        rfl

/-- `trimR` distributes out of an append whose right part keeps content. -/
theorem trimR_append (u v : List Char) (hv : trimR v ≠ []) :
    trimR (u ++ v) = u ++ trimR v := by
  induction u with
  | nil => rfl
  | cons c u' ih =>
    have hne : trimR (u' ++ v) ≠ [] := by
      rw [ih]
      intro h
      rcases List.append_eq_nil.mp h with ⟨_, h2⟩
      exact hv h2
    cases htc : trimR (u' ++ v) with
    | nil => exact absurd htc hne
    | cons x xs =>
      rw [List.cons_append,
        show trimR (c :: (u' ++ v)) = c :: x :: xs from by simp [trimR, htc], ← htc, ih]
      rfl

/-- `trimR` is idempotent. -/
theorem trimR_trimR (m : List Char) : trimR (trimR m) = trimR m := by
  rcases trimR_shape m with h | ⟨ys, y, hys, hy⟩
  · rw [h]; rfl
  · rw [hys, trimR_append ys [y] (by rw [trimR_singleton y hy]; exact List.cons_ne_nil y []),
      trimR_singleton y hy]

/-- The left-trimmed part of a `stripL` result is itself. -/
theorem dropWhile_trimR (m : List Char) (hm : m.dropWhile isSpc = m) :
    (trimR m).dropWhile isSpc = trimR m := by
  cases m with
  | nil => rfl
  | cons c cs =>
    have hc : isSpc c = false := dropWhile_head_false isSpc (c :: cs) c cs hm
    cases htc : trimR cs with
    | nil => simp [trimR, htc, hc, List.dropWhile_cons]
    | cons x xs => simp [trimR, htc, hc, List.dropWhile_cons]

/-- `stripL` is idempotent. -/
theorem stripL_stripL (l : List Char) : stripL (stripL l) = stripL l := by
  unfold stripL
  rw [dropWhile_trimR (l.dropWhile isSpc) (dropWhile_dropWhile isSpc l), trimR_trimR]

/-- Python `strip` is idempotent. -/
theorem pyStrip_pyStrip (s : String) : pyStrip (pyStrip s) = pyStrip s := by
  show (⟨stripL (stripL s.data)⟩ : String) = ⟨stripL s.data⟩
  rw [stripL_stripL]

/-- Stripping after removing leading whitespace is plain stripping. -/
theorem pyStrip_dropWhile (s : String) : pyStrip ⟨s.data.dropWhile isSpc⟩ = pyStrip s := by
  show (⟨stripL (s.data.dropWhile isSpc)⟩ : String) = ⟨stripL s.data⟩
  unfold stripL
  rw [dropWhile_dropWhile]

/-- Elements of a `takeWhile` result satisfy the predicate. -/
theorem all_takeWhile_self (p : Char → Bool) (l : List Char) :
    (l.takeWhile p).all p = true := by
  induction l with
  | nil => rfl
  | cons c cs ih =>
    by_cases h : p c <;> simp [List.takeWhile_cons, h, ih]

/-- A list of satisfied elements drops to nothing. -/
theorem dropWhile_nil_of_all (p : Char → Bool) (l : List Char) (h : l.all p = true) :
    l.dropWhile p = [] := by
  induction l with
  | nil => rfl
  | cons c cs ih =>
    rw [List.all_cons, Bool.and_eq_true] at h
    simp [List.dropWhile_cons, h.1, ih h.2]

/-- `trimR` erases exactly the all-space lists. -/
theorem trimR_eq_nil (m : List Char) : trimR m = [] ↔ m.all isSpc = true := by
  induction m with
  | nil => simp [trimR]
  | cons c cs ih =>
    cases htc : trimR cs with
    | nil =>
      have hcs : cs.all isSpc = true := ih.mp htc
      by_cases hc : isSpc c
      · simp [trimR, htc, hc, hcs]
      · simp [trimR, htc, hc, hcs]
    | cons x xs =>
      have hcs : ¬ cs.all isSpc = true := fun h => by
        rw [ih.mpr h] at htc; cases htc
      constructor
      · intro h
        rw [show trimR (c :: cs) = c :: x :: xs from by simp [trimR, htc]] at h
        cases h
      · intro h
        rw [List.all_cons, Bool.and_eq_true] at h
        exact absurd h.2 hcs

/-- `stripL` erases exactly the all-space lists. -/
theorem stripL_nil_iff (l : List Char) : stripL l = [] ↔ l.all isSpc = true := by
  unfold stripL
  rw [trimR_eq_nil]
  constructor
  · intro h
    have hsplit := List.takeWhile_append_dropWhile (p := isSpc) (l := l)
    rw [← hsplit, List.all_append, all_takeWhile_self, Bool.true_and]
    exact h
  · intro h
    rw [dropWhile_nil_of_all isSpc l h]
    rfl

/-- A line with a non-space character is not blank for the parser's test. -/
theorem not_blank_of_nonspace (s : String) (hx : s.data.all isSpc = false) :
    (pyStrip s == "") = false := by
  apply beq_eq_false_iff_ne.mpr
  intro he
  have hnil : stripL s.data = [] := congrArg String.data he
  rw [stripL_nil_iff] at hnil
  rw [hnil] at hx
  cases hx

/-- A header line `key: value` is never all-space. -/
theorem key_line_not_all_spc (key v : String) (hk : key.data.all isSpc = false) :
    ((key ++ ": " ++ v)).data.all isSpc = false := by
  rw [String.data_append, String.data_append, List.all_append, List.all_append]
  simp [hk]

/-- A non-empty strip means the left-trimmed data is non-empty. -/
theorem dropWhile_ne_of_pyStrip_ne (s : String) (h : pyStrip s ≠ "") :
    s.data.dropWhile isSpc ≠ [] := by
  intro hd
  apply h
  show (⟨stripL s.data⟩ : String) = ""
  unfold stripL
  rw [hd]
  rfl

/-- A successful ticket search needs a non-empty string. -/
theorem jiraSearch_ne_empty {s : String} (h : jiraSearch s = true) : s ≠ "" := by
  intro he
  rw [he] at h
  exact absurd h (by decide)

/-- Twenty characters force a non-empty string. -/
theorem ne_empty_of_twenty {s : String} (h : 20 ≤ s.length) : s ≠ "" := by
  intro he
  rw [he] at h
  exact absurd h (by decide)

/-- Joining two already-stripped non-empty pieces with a newline is itself
stripped. -/
theorem stripL_concat (A B : List Char) (hAne : A ≠ []) (hBne : B ≠ [])
    (hA1 : A.dropWhile isSpc = A) (hB2 : trimR B = B) :
    stripL (A ++ '\n' :: B) = A ++ '\n' :: B := by
  unfold stripL
  have h1 : (A ++ '\n' :: B).dropWhile isSpc = A ++ '\n' :: B := by
    cases A with
    | nil => exact absurd rfl hAne
    | cons c A' =>
      have hc : isSpc c = false := dropWhile_head_false isSpc (c :: A') c A' hA1
      rw [List.cons_append, List.dropWhile_cons, if_neg (by simp [hc])]
  rw [h1]
  have h2 : trimR ('\n' :: B) = '\n' :: B := by
    cases hB : trimR B with
    | nil =>
      rw [hB2] at hB
      exact absurd hB hBne
    | cons x xs =>
      rw [show trimR ('\n' :: B) = '\n' :: x :: xs from by simp [trimR, hB],
        show x :: xs = B from by rw [← hB2, hB]]
  rw [trimR_append A ('\n' :: B) (by rw [h2]; exact List.cons_ne_nil _ _), h2]

/-- `"\n".join` of two stripped non-empty strings needs no further strip. -/
theorem pyStrip_join_two (a b : String) (ha : pyStrip a ≠ "") (hb : pyStrip b ≠ "") :
    pyStrip (pyStrip a ++ "\n" ++ pyStrip b) = pyStrip a ++ "\n" ++ pyStrip b := by
  have hAne : stripL a.data ≠ [] := fun h => ha (by
    show (⟨stripL a.data⟩ : String) = ""
    rw [h])
  have hBne : stripL b.data ≠ [] := fun h => hb (by
    show (⟨stripL b.data⟩ : String) = ""
    rw [h])
  have hA1 : (stripL a.data).dropWhile isSpc = stripL a.data :=
    dropWhile_trimR (a.data.dropWhile isSpc) (dropWhile_dropWhile isSpc a.data)
  have hB2 : trimR (stripL b.data) = stripL b.data := by
    unfold stripL
    rw [trimR_trimR]
  have hdata : (pyStrip a ++ "\n" ++ pyStrip b).data =
      stripL a.data ++ '\n' :: stripL b.data := by
    rw [String.data_append, String.data_append, List.append_assoc]
    rfl
  show (⟨stripL ((pyStrip a ++ "\n" ++ pyStrip b).data)⟩ : String) = _
  rw [hdata, stripL_concat (stripL a.data) (stripL b.data) hAne hBne hA1 hB2]
  exact String.ext hdata.symm

/-- A string built from a non-empty character list is not the empty
string, in the boolean test the parser uses. -/
theorem mk_beq_empty (l : List Char) (h : l ≠ []) : ((⟨l⟩ : String) == "") = false :=
  beq_eq_false_iff_ne.mpr (fun e => h (congrArg String.data e))

/-- How the field regex reads a schematic header line `key: value`. -/
theorem takeWhile_app (p : Char → Bool) (xs ys : List Char) (h : xs.all p = true) :
    (xs ++ ys).takeWhile p = xs ++ ys.takeWhile p := by
  induction xs with
  | nil => rfl
  | cons c cs ih =>
    rw [List.all_cons, Bool.and_eq_true] at h
    simp [List.takeWhile_cons, h.1, ih h.2]

/-- Dropping a satisfied block from the front of an append. -/
theorem dropWhile_app (p : Char → Bool) (xs ys : List Char) (h : xs.all p = true) :
    (xs ++ ys).dropWhile p = ys.dropWhile p := by
  induction xs with
  | nil => rfl
  | cons c cs ih =>
    rw [List.all_cons, Bool.and_eq_true] at h
    simp [List.dropWhile_cons, h.1, ih h.2]

/-- The header-field regex on a schematic line `key: value`: it yields the
key and the value with leading whitespace removed. -/
theorem parseFieldLine_key (key v : String) (hk1 : key.data ≠ [])
    (hk2 : key.data.all isAsciiLetter = true) :
    parseFieldLine (key ++ ": " ++ v) = some (key, ⟨v.data.dropWhile isSpc⟩) := by
  have hdata : (key ++ ": " ++ v).data = key.data ++ (':' :: ' ' :: v.data) := by
    rw [String.data_append, String.data_append, List.append_assoc]
    rfl
  have hcond : key.data.isEmpty = false := by
    cases hkd : key.data with
    | nil => exact absurd hkd hk1
    | cons c cs => rfl
  unfold parseFieldLine
  rw [hdata, takeWhile_app _ _ _ hk2, dropWhile_app _ _ _ hk2,
    show (':' :: ' ' :: v.data).dropWhile isAsciiLetter = ':' :: ' ' :: v.data from rfl,
    show (':' :: ' ' :: v.data).takeWhile isAsciiLetter = ([] : List Char) from rfl,
    List.append_nil, hcond]
  rfl

/-- One step of the parse loop on a schematic non-Description field line:
it records the stripped value under the key and moves on. -/
theorem parseLoop_field_step (fuel : Nat) (fields : List (String × String))
    (descLines rest : List String) (key v : String)
    (hk1 : key.data ≠ []) (hk2 : key.data.all isAsciiLetter = true)
    (hk3 : key.data.all isSpc = false) (hkd : (key == "Description") = false) :
    parseLoop (fuel + 1) fields descLines ((key ++ ": " ++ v) :: rest) =
      ((parseLoop fuel (dictInsert fields key (pyStrip v)) descLines rest).1,
       (parseLoop fuel (dictInsert fields key (pyStrip v)) descLines rest).2 + 1) := by
  have hblank := not_blank_of_nonspace (key ++ ": " ++ v) (key_line_not_all_spc key v hk3)
  have hfield := parseFieldLine_key key v hk1 hk2
  simp only [parseLoop, hblank, hfield, hkd, Bool.false_eq_true, if_false, pyStrip_dropWhile]

/-- One step of the parse loop on a schematic Description line whose
following line stops the continuation scan: the shared accumulator grows
by the line's own (non-empty) value and the joined accumulator is stored. -/
theorem parseLoop_desc_step (fuel : Nat) (fields : List (String × String))
    (descLines rest : List String) (v : String)
    (hv : v.data.dropWhile isSpc ≠ []) (hcol : collectDesc rest = []) :
    parseLoop (fuel + 1) fields descLines (("Description" ++ ": " ++ v) :: rest) =
      ((parseLoop fuel
          (dictInsert fields "Description"
            (pyStrip (joinNl ((descLines ++ [String.mk (v.data.dropWhile isSpc)]).map pyStrip))))
          (descLines ++ [String.mk (v.data.dropWhile isSpc)]) rest).1,
       (parseLoop fuel
          (dictInsert fields "Description"
            (pyStrip (joinNl ((descLines ++ [String.mk (v.data.dropWhile isSpc)]).map pyStrip))))
          (descLines ++ [String.mk (v.data.dropWhile isSpc)]) rest).2 + 1) := by
  have hblank := not_blank_of_nonspace ("Description" ++ ": " ++ v)
    (key_line_not_all_spc "Description" v (by decide))
  have hfield := parseFieldLine_key "Description" v (by decide) (by decide)
  have hvne := mk_beq_empty (v.data.dropWhile isSpc) hv
  simp only [parseLoop, hblank, hfield, hvne, hcol, beq_self_eq_true, Bool.false_eq_true,
    if_false, if_true, List.length_nil, List.drop_zero, List.append_nil, Nat.add_zero]

/-- One step of the parse loop on a non-blank non-field diff-boundary
line: the loop breaks with cursor at that line. -/
theorem parseLoop_boundary_step (fuel : Nat) (fields : List (String × String))
    (descLines : List String) (line : String) (rest : List String)
    (hnb : (pyStrip line == "") = false) (hpf : parseFieldLine line = none)
    (hb : isBoundary line = true) :
    parseLoop (fuel + 1) fields descLines (line :: rest) = (fields, 0) := by
  simp only [parseLoop, hnb, hpf, hb, Bool.false_eq_true, if_false, if_true]

/-- The required-key check accepts a present key whose stripped value is
non-empty. -/
theorem missingCheck_none (fields : List (String × String)) (k v : String)
    (h1 : dictGet fields k = some v) (h2 : (pyStrip v == "") = false) :
    missingCheck fields k = none := by
  unfold missingCheck
  rw [h1]
  show (if (pyStrip v == "") = true then some (missingMsg k) else none) = none
  rw [h2]
  rfl

/-- One step of the parse loop on a blank line whose successor is not a
diff boundary: the line is skipped. -/
theorem parseLoop_blank_step (fuel : Nat) (fields : List (String × String))
    (descLines : List String) (line next : String) (rest : List String)
    (hbl : (pyStrip line == "") = true) (hnb : isBoundary next = false) :
    parseLoop (fuel + 1) fields descLines (line :: next :: rest) =
      ((parseLoop fuel fields descLines (next :: rest)).1,
       (parseLoop fuel fields descLines (next :: rest)).2 + 1) := by
  simp only [parseLoop, hbl, hnb, Bool.false_eq_true, if_false, if_true]

/-- Field projection of `parseLoop_field_step`. -/
theorem parseLoop_field_fst (fuel : Nat) (fields : List (String × String))
    (descLines rest : List String) (key v : String)
    (hk1 : key.data ≠ []) (hk2 : key.data.all isAsciiLetter = true)
    (hk3 : key.data.all isSpc = false) (hkd : (key == "Description") = false) :
    (parseLoop (fuel + 1) fields descLines ((key ++ ": " ++ v) :: rest)).1 =
      (parseLoop fuel (dictInsert fields key (pyStrip v)) descLines rest).1 := by
  rw [parseLoop_field_step fuel fields descLines rest key v hk1 hk2 hk3 hkd]

/-- Field projection of `parseLoop_desc_step`. -/
theorem parseLoop_desc_fst (fuel : Nat) (fields : List (String × String))
    (descLines rest : List String) (v : String)
    (hv : v.data.dropWhile isSpc ≠ []) (hcol : collectDesc rest = []) :
    (parseLoop (fuel + 1) fields descLines (("Description" ++ ": " ++ v) :: rest)).1 =
      (parseLoop fuel
        (dictInsert fields "Description"
          (pyStrip (joinNl ((descLines ++ [String.mk (v.data.dropWhile isSpc)]).map pyStrip))))
        (descLines ++ [String.mk (v.data.dropWhile isSpc)]) rest).1 := by
  rw [parseLoop_desc_step fuel fields descLines rest v hv hcol]

/-- Field projection of `parseLoop_boundary_step`. -/
theorem parseLoop_boundary_fst (fuel : Nat) (fields : List (String × String))
    (descLines : List String) (line : String) (rest : List String)
    (hnb : (pyStrip line == "") = false) (hpf : parseFieldLine line = none)
    (hb : isBoundary line = true) :
    (parseLoop (fuel + 1) fields descLines (line :: rest)).1 = fields := by
  rw [parseLoop_boundary_step fuel fields descLines line rest hnb hpf hb]

/-- Field projection of `parseLoop_blank_step`. -/
theorem parseLoop_blank_fst (fuel : Nat) (fields : List (String × String))
    (descLines : List String) (line next : String) (rest : List String)
    (hbl : (pyStrip line == "") = true) (hnb : isBoundary next = false) :
    (parseLoop (fuel + 1) fields descLines (line :: next :: rest)).1 =
      (parseLoop fuel fields descLines (next :: rest)).1 := by
  rw [parseLoop_blank_step fuel fields descLines line next rest hbl hnb]

/-- C4: the round trip.  A file whose header gives all six required fields
with valid values — a ticket reference whose stripped value contains an
`ABC-123`-shaped key, `Upstream: no`, Title, Author and Date non-empty
after stripping, a Description whose stripped value has at least 20
characters — followed by the line `diff --git a/x b/x` validates with an
empty violation list. -/
theorem c4_round_trip (j t a d ds : String)
    (_hj1 : lineSafe j) (_ht1 : lineSafe t) (_ha1 : lineSafe a) (_hd1 : lineSafe d)
    (_hds1 : lineSafe ds)
    (hj : jiraSearch (pyStrip j) = true)
    (ht : pyStrip t ≠ "") (ha : pyStrip a ≠ "") (hd : pyStrip d ≠ "")
    (hds : 20 ≤ (pyStrip ds).length) :
    validate_patch_file
      ["JIRA" ++ ": " ++ j, "Upstream" ++ ": " ++ "no", "Title" ++ ": " ++ t,
       "Author" ++ ": " ++ a, "Date" ++ ": " ++ d, "Description" ++ ": " ++ ds,
       "diff --git a/x b/x"] = [] := by
  have hdsne : ds.data.dropWhile isSpc ≠ [] :=
    dropWhile_ne_of_pyStrip_ne ds (ne_empty_of_twenty hds)
  have hfields : parseFields
      ["JIRA" ++ ": " ++ j, "Upstream" ++ ": " ++ "no", "Title" ++ ": " ++ t,
       "Author" ++ ": " ++ a, "Date" ++ ": " ++ d, "Description" ++ ": " ++ ds,
       "diff --git a/x b/x"] =
      [("JIRA", pyStrip j), ("Upstream", pyStrip "no"), ("Title", pyStrip t),
       ("Author", pyStrip a), ("Date", pyStrip d), ("Description", pyStrip ds)] := by
    show (parseLoop 7 [] []
      ["JIRA" ++ ": " ++ j, "Upstream" ++ ": " ++ "no", "Title" ++ ": " ++ t,
       "Author" ++ ": " ++ a, "Date" ++ ": " ++ d, "Description" ++ ": " ++ ds,
       "diff --git a/x b/x"]).1 = _
    calc (parseLoop 7 [] []
        ["JIRA" ++ ": " ++ j, "Upstream" ++ ": " ++ "no", "Title" ++ ": " ++ t,
         "Author" ++ ": " ++ a, "Date" ++ ": " ++ d, "Description" ++ ": " ++ ds,
         "diff --git a/x b/x"]).1
        = (parseLoop 6 [("JIRA", pyStrip j)] []
            ["Upstream" ++ ": " ++ "no", "Title" ++ ": " ++ t, "Author" ++ ": " ++ a,
             "Date" ++ ": " ++ d, "Description" ++ ": " ++ ds, "diff --git a/x b/x"]).1 :=
          parseLoop_field_fst 6 [] []
            ["Upstream" ++ ": " ++ "no", "Title" ++ ": " ++ t, "Author" ++ ": " ++ a,
             "Date" ++ ": " ++ d, "Description" ++ ": " ++ ds, "diff --git a/x b/x"]
            "JIRA" j (by decide) (by decide) (by decide) (by decide)
      _ = (parseLoop 5 [("JIRA", pyStrip j), ("Upstream", pyStrip "no")] []
            ["Title" ++ ": " ++ t, "Author" ++ ": " ++ a, "Date" ++ ": " ++ d,
             "Description" ++ ": " ++ ds, "diff --git a/x b/x"]).1 :=
          parseLoop_field_fst 5 [("JIRA", pyStrip j)] []
            ["Title" ++ ": " ++ t, "Author" ++ ": " ++ a, "Date" ++ ": " ++ d,
             "Description" ++ ": " ++ ds, "diff --git a/x b/x"]
            "Upstream" "no" (by decide) (by decide) (by decide) (by decide)
      _ = (parseLoop 4 [("JIRA", pyStrip j), ("Upstream", pyStrip "no"),
             ("Title", pyStrip t)] []
            ["Author" ++ ": " ++ a, "Date" ++ ": " ++ d, "Description" ++ ": " ++ ds,
             "diff --git a/x b/x"]).1 :=
          parseLoop_field_fst 4
            [("JIRA", pyStrip j), ("Upstream", pyStrip "no")] []
            ["Author" ++ ": " ++ a, "Date" ++ ": " ++ d, "Description" ++ ": " ++ ds,
             "diff --git a/x b/x"]
            "Title" t (by decide) (by decide) (by decide) (by decide)
      _ = (parseLoop 3 [("JIRA", pyStrip j), ("Upstream", pyStrip "no"),
             ("Title", pyStrip t), ("Author", pyStrip a)] []
            ["Date" ++ ": " ++ d, "Description" ++ ": " ++ ds, "diff --git a/x b/x"]).1 :=
          parseLoop_field_fst 3
            [("JIRA", pyStrip j), ("Upstream", pyStrip "no"), ("Title", pyStrip t)] []
            ["Date" ++ ": " ++ d, "Description" ++ ": " ++ ds, "diff --git a/x b/x"]
            "Author" a (by decide) (by decide) (by decide) (by decide)
      _ = (parseLoop 2 [("JIRA", pyStrip j), ("Upstream", pyStrip "no"),
             ("Title", pyStrip t), ("Author", pyStrip a), ("Date", pyStrip d)] []
            ["Description" ++ ": " ++ ds, "diff --git a/x b/x"]).1 :=
          parseLoop_field_fst 2
            [("JIRA", pyStrip j), ("Upstream", pyStrip "no"), ("Title", pyStrip t),
             ("Author", pyStrip a)] []
            ["Description" ++ ": " ++ ds, "diff --git a/x b/x"]
            "Date" d (by decide) (by decide) (by decide) (by decide)
      _ = (parseLoop 1 [("JIRA", pyStrip j), ("Upstream", pyStrip "no"),
             ("Title", pyStrip t), ("Author", pyStrip a), ("Date", pyStrip d),
             ("Description", pyStrip (pyStrip (String.mk (ds.data.dropWhile isSpc))))]
            [String.mk (ds.data.dropWhile isSpc)] ["diff --git a/x b/x"]).1 :=
          parseLoop_desc_fst 1
            [("JIRA", pyStrip j), ("Upstream", pyStrip "no"), ("Title", pyStrip t),
             ("Author", pyStrip a), ("Date", pyStrip d)] []
            ["diff --git a/x b/x"] ds hdsne (by decide)
      _ = (parseLoop 1 [("JIRA", pyStrip j), ("Upstream", pyStrip "no"),
             ("Title", pyStrip t), ("Author", pyStrip a), ("Date", pyStrip d),
             ("Description", pyStrip ds)]
            [String.mk (ds.data.dropWhile isSpc)] ["diff --git a/x b/x"]).1 := by
          rw [pyStrip_pyStrip, pyStrip_dropWhile]
      _ = [("JIRA", pyStrip j), ("Upstream", pyStrip "no"), ("Title", pyStrip t),
           ("Author", pyStrip a), ("Date", pyStrip d), ("Description", pyStrip ds)] :=
          parseLoop_boundary_fst 0
            [("JIRA", pyStrip j), ("Upstream", pyStrip "no"), ("Title", pyStrip t),
             ("Author", pyStrip a), ("Date", pyStrip d), ("Description", pyStrip ds)]
            [String.mk (ds.data.dropWhile isSpc)] "diff --git a/x b/x" []
            (by decide) (by decide) (by decide)
  rw [validate_patch_file_eq _ (List.cons_ne_nil _ _), hfields]
  have hm : missingErrors
      [("JIRA", pyStrip j), ("Upstream", pyStrip "no"), ("Title", pyStrip t),
       ("Author", pyStrip a), ("Date", pyStrip d), ("Description", pyStrip ds)] = [] := by
    have h1 := missingCheck_none
      [("JIRA", pyStrip j), ("Upstream", pyStrip "no"), ("Title", pyStrip t),
       ("Author", pyStrip a), ("Date", pyStrip d), ("Description", pyStrip ds)]
      "JIRA" (pyStrip j) rfl
      (by rw [pyStrip_pyStrip]; exact beq_eq_false_iff_ne.mpr (jiraSearch_ne_empty hj))
    have h2 := missingCheck_none
      [("JIRA", pyStrip j), ("Upstream", pyStrip "no"), ("Title", pyStrip t),
       ("Author", pyStrip a), ("Date", pyStrip d), ("Description", pyStrip ds)]
      "Upstream" (pyStrip "no") rfl (by decide)
    have h3 := missingCheck_none
      [("JIRA", pyStrip j), ("Upstream", pyStrip "no"), ("Title", pyStrip t),
       ("Author", pyStrip a), ("Date", pyStrip d), ("Description", pyStrip ds)]
      "Title" (pyStrip t) rfl
      (by rw [pyStrip_pyStrip]; exact beq_eq_false_iff_ne.mpr ht)
    have h4 := missingCheck_none
      [("JIRA", pyStrip j), ("Upstream", pyStrip "no"), ("Title", pyStrip t),
       ("Author", pyStrip a), ("Date", pyStrip d), ("Description", pyStrip ds)]
      "Author" (pyStrip a) rfl
      (by rw [pyStrip_pyStrip]; exact beq_eq_false_iff_ne.mpr ha)
    have h5 := missingCheck_none
      [("JIRA", pyStrip j), ("Upstream", pyStrip "no"), ("Title", pyStrip t),
       ("Author", pyStrip a), ("Date", pyStrip d), ("Description", pyStrip ds)]
      "Date" (pyStrip d) rfl
      (by rw [pyStrip_pyStrip]; exact beq_eq_false_iff_ne.mpr hd)
    have h6 := missingCheck_none
      [("JIRA", pyStrip j), ("Upstream", pyStrip "no"), ("Title", pyStrip t),
       ("Author", pyStrip a), ("Date", pyStrip d), ("Description", pyStrip ds)]
      "Description" (pyStrip ds) rfl
      (by rw [pyStrip_pyStrip]; exact beq_eq_false_iff_ne.mpr (ne_empty_of_twenty hds))
    unfold missingErrors REQUIRED_KEYS
    simp only [List.filterMap_cons, h1, h2, h3, h4, h5, h6, List.filterMap_nil]
  have hji : jiraErrors
      [("JIRA", pyStrip j), ("Upstream", pyStrip "no"), ("Title", pyStrip t),
       ("Author", pyStrip a), ("Date", pyStrip d), ("Description", pyStrip ds)] = [] := by
    show (if (pyStrip j == "") = true then ([] : List String)
      else if jiraSearch (pyStrip j) = true then [] else [jiraMsg (pyStrip j)]) = []
    rw [hj]
    by_cases hc : (pyStrip j == "") = true
    · rw [if_pos hc]
    · rw [if_neg hc, if_pos rfl]
  have hup : upstreamErrors
      [("JIRA", pyStrip j), ("Upstream", pyStrip "no"), ("Title", pyStrip t),
       ("Author", pyStrip a), ("Date", pyStrip d), ("Description", pyStrip ds)] = [] := rfl
  have hde : descErrors
      [("JIRA", pyStrip j), ("Upstream", pyStrip "no"), ("Title", pyStrip t),
       ("Author", pyStrip a), ("Date", pyStrip d), ("Description", pyStrip ds)] = [] := by
    show (if (pyStrip (pyStrip ds)).length < 20 then [descMsg] else []) = []
    rw [pyStrip_pyStrip, if_neg (by omega)]
  rw [hm, hji, hup, hde]
  rfl

/-- Witness for C4 at a fully concrete valid patch file. -/
theorem c4_witness :
    validate_patch_file
      ["JIRA" ++ ": " ++ "ABC-123", "Upstream" ++ ": " ++ "no", "Title" ++ ": " ++ "Fix bug",
       "Author" ++ ": " ++ "A Dev", "Date" ++ ": " ++ "2024-01-01",
       "Description" ++ ": " ++ "This patch fixes the frobnicator alignment.",
       "diff --git a/x b/x"] = [] :=
  c4_round_trip "ABC-123" "Fix bug" "A Dev" "2024-01-01"
    "This patch fixes the frobnicator alignment."
    (by decide) (by decide) (by decide) (by decide) (by decide)
    (by decide) (by decide) (by decide) (by decide) (by decide)

/-- C10: the description accumulator is shared across occurrences.  When
`Description` appears on two header lines (separated by a blank line so
the first continuation scan stops), the value stored after the second
occurrence is the newline-join of both occurrences' stripped values, not
only the most recent one. -/
theorem c10_description_accumulates (d1 d2 : String)
    (_h1 : lineSafe d1) (_h2 : lineSafe d2)
    (hd1 : pyStrip d1 ≠ "") (hd2 : pyStrip d2 ≠ "") :
    dictGet (parseFields
      ["Description" ++ ": " ++ d1, "", "Description" ++ ": " ++ d2,
       "diff --git a/x b/x"]) "Description" =
      some (pyStrip d1 ++ "\n" ++ pyStrip d2) := by
  have hv1 : d1.data.dropWhile isSpc ≠ [] := dropWhile_ne_of_pyStrip_ne d1 hd1
  have hv2 : d2.data.dropWhile isSpc ≠ [] := dropWhile_ne_of_pyStrip_ne d2 hd2
  have hfields : parseFields
      ["Description" ++ ": " ++ d1, "", "Description" ++ ": " ++ d2,
       "diff --git a/x b/x"] =
      [("Description", pyStrip d1 ++ "\n" ++ pyStrip d2)] := by
    show (parseLoop 4 [] []
      ["Description" ++ ": " ++ d1, "", "Description" ++ ": " ++ d2,
       "diff --git a/x b/x"]).1 = _
    calc (parseLoop 4 [] []
        ["Description" ++ ": " ++ d1, "", "Description" ++ ": " ++ d2,
         "diff --git a/x b/x"]).1
        = (parseLoop 3
            [("Description", pyStrip (pyStrip (String.mk (d1.data.dropWhile isSpc))))]
            [String.mk (d1.data.dropWhile isSpc)]
            ["", "Description" ++ ": " ++ d2, "diff --git a/x b/x"]).1 :=
          parseLoop_desc_fst 3 [] []
            ["", "Description" ++ ": " ++ d2, "diff --git a/x b/x"] d1 hv1 rfl
      _ = (parseLoop 3 [("Description", pyStrip d1)]
            [String.mk (d1.data.dropWhile isSpc)]
            ["", "Description" ++ ": " ++ d2, "diff --git a/x b/x"]).1 := by
          rw [pyStrip_pyStrip, pyStrip_dropWhile]
      _ = (parseLoop 2 [("Description", pyStrip d1)]
            [String.mk (d1.data.dropWhile isSpc)]
            ["Description" ++ ": " ++ d2, "diff --git a/x b/x"]).1 :=
          parseLoop_blank_fst 2 [("Description", pyStrip d1)]
            [String.mk (d1.data.dropWhile isSpc)] ""
            ("Description" ++ ": " ++ d2) ["diff --git a/x b/x"] rfl rfl
      _ = (parseLoop 1
            [("Description", pyStrip (pyStrip (String.mk (d1.data.dropWhile isSpc)) ++ "\n" ++
               pyStrip (String.mk (d2.data.dropWhile isSpc))))]
            [String.mk (d1.data.dropWhile isSpc), String.mk (d2.data.dropWhile isSpc)]
            ["diff --git a/x b/x"]).1 :=
          parseLoop_desc_fst 1 [("Description", pyStrip d1)]
            [String.mk (d1.data.dropWhile isSpc)] ["diff --git a/x b/x"] d2 hv2 rfl
      _ = (parseLoop 1
            [("Description", pyStrip (pyStrip d1 ++ "\n" ++ pyStrip d2))]
            [String.mk (d1.data.dropWhile isSpc), String.mk (d2.data.dropWhile isSpc)]
            ["diff --git a/x b/x"]).1 := by
          rw [pyStrip_dropWhile, pyStrip_dropWhile]
      _ = (parseLoop 1
            [("Description", pyStrip d1 ++ "\n" ++ pyStrip d2)]
            [String.mk (d1.data.dropWhile isSpc), String.mk (d2.data.dropWhile isSpc)]
            ["diff --git a/x b/x"]).1 := by
          rw [pyStrip_join_two d1 d2 hd1 hd2]
      _ = [("Description", pyStrip d1 ++ "\n" ++ pyStrip d2)] :=
          parseLoop_boundary_fst 0
            [("Description", pyStrip d1 ++ "\n" ++ pyStrip d2)]
            [String.mk (d1.data.dropWhile isSpc), String.mk (d2.data.dropWhile isSpc)]
            "diff --git a/x b/x" [] (by decide) (by decide) (by decide)
  rw [hfields]
  rfl

/-- Witness for C10 at concrete two-part descriptions. -/
theorem c10_witness :
    dictGet (parseFields
      ["Description" ++ ": " ++ "first part", "", "Description" ++ ": " ++ "second part",
       "diff --git a/x b/x"]) "Description" =
      some (pyStrip "first part" ++ "\n" ++ pyStrip "second part") :=
  c10_description_accumulates "first part" "second part"
    (by decide) (by decide) (by decide) (by decide)

/-- The continuation scan collects at most as many lines as remain. -/
theorem collectDesc_length_le (ls : List String) : (collectDesc ls).length ≤ ls.length := by
  induction ls with
  | nil => exact Nat.le_refl 0
  | cons ln rest ih =>
    by_cases h : (isBoundary ln || pyStrip ln == "") = true
    · simp [collectDesc, h]
    · have hf : (isBoundary ln || pyStrip ln == "") = false := Bool.eq_false_iff.mpr h
      rw [show collectDesc (ln :: rest) = ln :: collectDesc rest from by
        simp [collectDesc, hf]]
      simp only [List.length_cons]
      omega

/-- The parse loop on no lines consumes nothing regardless of fuel. -/
theorem parseLoop_nil (fuel : Nat) (fields : List (String × String))
    (descLines : List String) : parseLoop fuel fields descLines [] = (fields, 0) := by
  cases fuel <;> rfl

/-- The parse loop never consumes more lines than exist. -/
theorem parseLoop_snd_le (fuel : Nat) :
    ∀ (fields : List (String × String)) (descLines ls : List String),
      (parseLoop fuel fields descLines ls).2 ≤ ls.length := by
  induction fuel with
  | zero => intro _ _ _; exact Nat.zero_le _
  | succ fuel ih =>
    intro fields descLines ls
    cases ls with
    | nil => exact Nat.zero_le _
    | cons line rest =>
      by_cases hbl : (pyStrip line == "") = true
      · cases rest with
        | nil =>
          have hstep : parseLoop (fuel + 1) fields descLines [line] = (fields, 1) := by
            simp [parseLoop, hbl]
          rw [hstep]
          exact Nat.le_refl 1
        | cons next tail =>
          by_cases hb : isBoundary next = true
          · have hstep : parseLoop (fuel + 1) fields descLines (line :: next :: tail) =
                (fields, 1) := by
              simp [parseLoop, hbl, hb]
            rw [hstep]
            simp only [List.length_cons]
            omega
          · have hbf : isBoundary next = false := Bool.eq_false_iff.mpr hb
            have hstep : parseLoop (fuel + 1) fields descLines (line :: next :: tail) =
                ((parseLoop fuel fields descLines (next :: tail)).1,
                 (parseLoop fuel fields descLines (next :: tail)).2 + 1) := by
              simp [parseLoop, hbl, hbf]
            rw [hstep]
            have h := ih fields descLines (next :: tail)
            simp only [List.length_cons] at h ⊢
            omega
      · have hblf : (pyStrip line == "") = false := Bool.eq_false_iff.mpr hbl
        cases hpf : parseFieldLine line with
        | none =>
          by_cases hb : isBoundary line = true
          · have hstep : parseLoop (fuel + 1) fields descLines (line :: rest) =
                (fields, 0) := by
              simp [parseLoop, hblf, hpf, hb]
            rw [hstep]
            exact Nat.zero_le _
          · have hbf : isBoundary line = false := Bool.eq_false_iff.mpr hb
            have hstep : parseLoop (fuel + 1) fields descLines (line :: rest) =
                ((parseLoop fuel fields descLines rest).1,
                 (parseLoop fuel fields descLines rest).2 + 1) := by
              simp [parseLoop, hblf, hpf, hbf]
            rw [hstep]
            have h := ih fields descLines rest
            simp only [List.length_cons]
            omega
        | some kv =>
          obtain ⟨key, value⟩ := kv
          by_cases hk : (key == "Description") = true
          · have hstep : parseLoop (fuel + 1) fields descLines (line :: rest) =
                ((parseLoop fuel
                    (dictInsert fields "Description"
                      (pyStrip (joinNl ((descLines ++ (if value == "" then [] else [value]) ++
                        collectDesc rest).map pyStrip))))
                    (descLines ++ (if value == "" then [] else [value]) ++ collectDesc rest)
                    (rest.drop (collectDesc rest).length)).1,
                 (parseLoop fuel
                    (dictInsert fields "Description"
                      (pyStrip (joinNl ((descLines ++ (if value == "" then [] else [value]) ++
                        collectDesc rest).map pyStrip))))
                    (descLines ++ (if value == "" then [] else [value]) ++ collectDesc rest)
                    (rest.drop (collectDesc rest).length)).2 + 1 +
                  (collectDesc rest).length) := by
              simp [parseLoop, hblf, hpf, hk]
            rw [hstep]
            have h := ih
              (dictInsert fields "Description"
                (pyStrip (joinNl ((descLines ++ (if value == "" then [] else [value]) ++
                  collectDesc rest).map pyStrip))))
              (descLines ++ (if value == "" then [] else [value]) ++ collectDesc rest)
              (rest.drop (collectDesc rest).length)
            have hm := collectDesc_length_le rest
            have hd : (rest.drop (collectDesc rest).length).length =
                rest.length - (collectDesc rest).length := List.length_drop _ _
            simp only [List.length_cons]
            omega
          · have hkf : (key == "Description") = false := Bool.eq_false_iff.mpr hk
            have hstep : parseLoop (fuel + 1) fields descLines (line :: rest) =
                ((parseLoop fuel (dictInsert fields key (pyStrip value)) descLines rest).1,
                 (parseLoop fuel (dictInsert fields key (pyStrip value)) descLines rest).2 +
                   1) := by
              simp [parseLoop, hblf, hpf, hkf]
            rw [hstep]
            have h := ih (dictInsert fields key (pyStrip value)) descLines rest
            simp only [List.length_cons]
            omega

/-- The only way the parse loop consumes nothing from a non-empty input
is breaking at a diff boundary on its first line. -/
theorem parseLoop_snd_eq_zero (fuel : Nat) (fields : List (String × String))
    (descLines : List String) (line : String) (rest : List String)
    (h : (parseLoop (fuel + 1) fields descLines (line :: rest)).2 = 0) :
    isBoundary line = true := by
  by_cases hbl : (pyStrip line == "") = true
  · cases rest with
    | nil =>
      rw [show parseLoop (fuel + 1) fields descLines [line] = (fields, 1) from by
        simp [parseLoop, hbl]] at h
      cases h
    | cons next tail =>
      by_cases hb : isBoundary next = true
      · rw [show parseLoop (fuel + 1) fields descLines (line :: next :: tail) =
            (fields, 1) from by simp [parseLoop, hbl, hb]] at h
        cases h
      · have hbf : isBoundary next = false := Bool.eq_false_iff.mpr hb
        rw [show parseLoop (fuel + 1) fields descLines (line :: next :: tail) =
            ((parseLoop fuel fields descLines (next :: tail)).1,
             (parseLoop fuel fields descLines (next :: tail)).2 + 1) from by
          simp [parseLoop, hbl, hbf]] at h
        simp only [] at h
        omega
  · have hblf : (pyStrip line == "") = false := Bool.eq_false_iff.mpr hbl
    cases hpf : parseFieldLine line with
    | none =>
      by_cases hb : isBoundary line = true
      · exact hb
      · have hbf : isBoundary line = false := Bool.eq_false_iff.mpr hb
        rw [show parseLoop (fuel + 1) fields descLines (line :: rest) =
            ((parseLoop fuel fields descLines rest).1,
             (parseLoop fuel fields descLines rest).2 + 1) from by
          simp [parseLoop, hblf, hpf, hbf]] at h
        simp only [] at h
        omega
    | some kv =>
      obtain ⟨key, value⟩ := kv
      by_cases hk : (key == "Description") = true
      · rw [show parseLoop (fuel + 1) fields descLines (line :: rest) =
            ((parseLoop fuel
                (dictInsert fields "Description"
                  (pyStrip (joinNl ((descLines ++ (if value == "" then [] else [value]) ++
                    collectDesc rest).map pyStrip))))
                (descLines ++ (if value == "" then [] else [value]) ++ collectDesc rest)
                (rest.drop (collectDesc rest).length)).1,
             (parseLoop fuel
                (dictInsert fields "Description"
                  (pyStrip (joinNl ((descLines ++ (if value == "" then [] else [value]) ++
                    collectDesc rest).map pyStrip))))
                (descLines ++ (if value == "" then [] else [value]) ++ collectDesc rest)
                (rest.drop (collectDesc rest).length)).2 + 1 +
              (collectDesc rest).length) from by simp [parseLoop, hblf, hpf, hk]] at h
        simp only [] at h
        omega
      · have hkf : (key == "Description") = false := Bool.eq_false_iff.mpr hk
        rw [show parseLoop (fuel + 1) fields descLines (line :: rest) =
            ((parseLoop fuel (dictInsert fields key (pyStrip value)) descLines rest).1,
             (parseLoop fuel (dictInsert fields key (pyStrip value)) descLines rest).2 +
               1) from by simp [parseLoop, hblf, hpf, hkf]] at h
        simp only [] at h
        omega

/-- Truncating the input after the collected prefix does not change what
the continuation scan collects. -/
theorem collectDesc_take : ∀ (ls : List String) (k : Nat),
    (collectDesc ls).length ≤ k → collectDesc (ls.take k) = collectDesc ls := by
  intro ls
  induction ls with
  | nil => intro k _; rw [List.take_nil]
  | cons ln rest ih =>
    intro k hk
    by_cases h : (isBoundary ln || pyStrip ln == "") = true
    · have h0 : collectDesc (ln :: rest) = [] := by simp [collectDesc, h]
      rw [h0]
      cases k with
      | zero => rw [List.take_zero]; rfl
      | succ k' =>
        rw [List.take_succ_cons]
        simp [collectDesc, h]
    · have hf : (isBoundary ln || pyStrip ln == "") = false := Bool.eq_false_iff.mpr h
      have h1 : collectDesc (ln :: rest) = ln :: collectDesc rest := by
        simp [collectDesc, hf]
      rw [h1] at hk ⊢
      cases k with
      | zero =>
        simp only [List.length_cons] at hk
        omega
      | succ k' =>
        rw [List.take_succ_cons]
        have h2 : collectDesc (ln :: rest.take k') = ln :: collectDesc (rest.take k') := by
          simp [collectDesc, hf]
        rw [h2, ih k' (by simp only [List.length_cons] at hk; omega)]

/-- Dropping the shared prefix commutes with truncation. -/
theorem drop_take_comm (m n : Nat) (l : List String) :
    (l.take (n + m)).drop m = (l.drop m).take n := by
  rw [show n + m = m + n from Nat.add_comm n m, ← List.take_drop]

/-- One step of the parse loop on an arbitrary Description field line. -/
theorem parseLoop_desc_gen (fuel : Nat) (fields : List (String × String))
    (descLines rest : List String) (line key value : String)
    (hbl : (pyStrip line == "") = false) (hpf : parseFieldLine line = some (key, value))
    (hk : (key == "Description") = true) :
    parseLoop (fuel + 1) fields descLines (line :: rest) =
      ((parseLoop fuel
          (dictInsert fields "Description"
            (pyStrip (joinNl ((descLines ++ (if value == "" then [] else [value]) ++
              collectDesc rest).map pyStrip))))
          (descLines ++ (if value == "" then [] else [value]) ++ collectDesc rest)
          (rest.drop (collectDesc rest).length)).1,
       (parseLoop fuel
          (dictInsert fields "Description"
            (pyStrip (joinNl ((descLines ++ (if value == "" then [] else [value]) ++
              collectDesc rest).map pyStrip))))
          (descLines ++ (if value == "" then [] else [value]) ++ collectDesc rest)
          (rest.drop (collectDesc rest).length)).2 + 1 +
        (collectDesc rest).length) := by
  simp [parseLoop, hbl, hpf, hk]

/-- Re-running the parse loop on only the consumed prefix of the input
reproduces the same fields and the same cursor: no line at or after the
cursor contributes to the result. -/
theorem parseLoop_take (fuel : Nat) :
    ∀ (fields : List (String × String)) (descLines ls : List String),
      ls.length ≤ fuel → ∀ fuel₂ : Nat,
      (parseLoop fuel fields descLines ls).2 ≤ fuel₂ →
      parseLoop fuel₂ fields descLines (ls.take (parseLoop fuel fields descLines ls).2) =
        parseLoop fuel fields descLines ls := by
  induction fuel with
  | zero =>
    intro fields descLines ls hlen fuel₂ _
    have h0 : ls = [] := List.length_eq_zero.mp (Nat.le_zero.mp hlen)
    subst h0
    rw [show parseLoop 0 fields descLines ([] : List String) = (fields, 0) from rfl,
      List.take_nil]
    exact parseLoop_nil fuel₂ fields descLines
  | succ fuel ih =>
    intro fields descLines ls hlen fuel₂ h2
    cases ls with
    | nil =>
      rw [show parseLoop (fuel + 1) fields descLines ([] : List String) = (fields, 0)
        from rfl, List.take_nil]
      exact parseLoop_nil fuel₂ fields descLines
    | cons line rest =>
      simp only [List.length_cons] at hlen
      by_cases hbl : (pyStrip line == "") = true
      · cases rest with
        | nil =>
          have hstep : parseLoop (fuel + 1) fields descLines [line] = (fields, 1) := by
            simp [parseLoop, hbl]
          rw [hstep] at h2 ⊢
          simp only [] at h2
          obtain ⟨k, rfl⟩ : ∃ k, fuel₂ = k + 1 := ⟨fuel₂ - 1, by omega⟩
          rw [List.take_succ_cons, List.take_nil]
          simp [parseLoop, hbl]
        | cons next tail =>
          by_cases hb : isBoundary next = true
          · have hstep : parseLoop (fuel + 1) fields descLines (line :: next :: tail) =
                (fields, 1) := by
              simp [parseLoop, hbl, hb]
            rw [hstep] at h2 ⊢
            simp only [] at h2
            obtain ⟨k, rfl⟩ : ∃ k, fuel₂ = k + 1 := ⟨fuel₂ - 1, by omega⟩
            rw [List.take_succ_cons, List.take_zero]
            simp [parseLoop, hbl]
          · have hbf : isBoundary next = false := Bool.eq_false_iff.mpr hb
            have hstep : parseLoop (fuel + 1) fields descLines (line :: next :: tail) =
                ((parseLoop fuel fields descLines (next :: tail)).1,
                 (parseLoop fuel fields descLines (next :: tail)).2 + 1) := by
              simp [parseLoop, hbl, hbf]
            have hn1 : 1 ≤ (parseLoop fuel fields descLines (next :: tail)).2 := by
              have hlc : (next :: tail).length = tail.length + 1 := List.length_cons next tail
              obtain ⟨fl, rfl⟩ : ∃ fl, fuel = fl + 1 := ⟨fuel - 1, by omega⟩
              by_contra hzero
              have h0 : (parseLoop (fl + 1) fields descLines (next :: tail)).2 = 0 := by
                omega
              exact hb (parseLoop_snd_eq_zero fl fields descLines next tail h0)
            rw [hstep] at h2 ⊢
            simp only [] at h2
            obtain ⟨k, rfl⟩ : ∃ k, fuel₂ = k + 1 := ⟨fuel₂ - 1, by omega⟩
            obtain ⟨n', hn'⟩ : ∃ n',
                (parseLoop fuel fields descLines (next :: tail)).2 = n' + 1 :=
              ⟨(parseLoop fuel fields descLines (next :: tail)).2 - 1, by omega⟩
            rw [hn', List.take_succ_cons, List.take_succ_cons]
            have hstep2 : parseLoop (k + 1) fields descLines (line :: next :: tail.take n') =
                ((parseLoop k fields descLines (next :: tail.take n')).1,
                 (parseLoop k fields descLines (next :: tail.take n')).2 + 1) := by
              simp [parseLoop, hbl, hbf]
            rw [hstep2]
            have hih := ih fields descLines (next :: tail)
              (by omega) k (by omega)
            rw [hn', List.take_succ_cons] at hih
            rw [hih, hn']
      · have hblf : (pyStrip line == "") = false := Bool.eq_false_iff.mpr hbl
        cases hpf : parseFieldLine line with
        | none =>
          by_cases hb : isBoundary line = true
          · have hstep : parseLoop (fuel + 1) fields descLines (line :: rest) =
                (fields, 0) := by
              simp [parseLoop, hblf, hpf, hb]
            rw [hstep] at h2 ⊢
            simp only [] at h2
            rw [List.take_zero]
            exact parseLoop_nil fuel₂ fields descLines
          · have hbf : isBoundary line = false := Bool.eq_false_iff.mpr hb
            have hstep : parseLoop (fuel + 1) fields descLines (line :: rest) =
                ((parseLoop fuel fields descLines rest).1,
                 (parseLoop fuel fields descLines rest).2 + 1) := by
              simp [parseLoop, hblf, hpf, hbf]
            rw [hstep] at h2 ⊢
            simp only [] at h2
            obtain ⟨k, rfl⟩ : ∃ k, fuel₂ = k + 1 := ⟨fuel₂ - 1, by omega⟩
            rw [List.take_succ_cons]
            have hstep2 : parseLoop (k + 1) fields descLines
                (line :: rest.take (parseLoop fuel fields descLines rest).2) =
                ((parseLoop k fields descLines
                    (rest.take (parseLoop fuel fields descLines rest).2)).1,
                 (parseLoop k fields descLines
                    (rest.take (parseLoop fuel fields descLines rest).2)).2 + 1) := by
              simp [parseLoop, hblf, hpf, hbf]
            rw [hstep2]
            have hih := ih fields descLines rest (by omega) k (by omega)
            rw [hih]
        | some kv =>
          obtain ⟨key, value⟩ := kv
          by_cases hk : (key == "Description") = true
          · have hstep := parseLoop_desc_gen fuel fields descLines rest line key value
              hblf hpf hk
            rw [hstep] at h2 ⊢
            simp only [] at h2
            obtain ⟨k, rfl⟩ : ∃ k, fuel₂ = k + 1 := ⟨fuel₂ - 1, by omega⟩
            obtain ⟨n, hn⟩ : ∃ n, (parseLoop fuel
                (dictInsert fields "Description"
                  (pyStrip (joinNl ((descLines ++ (if value == "" then [] else [value]) ++
                    collectDesc rest).map pyStrip))))
                (descLines ++ (if value == "" then [] else [value]) ++ collectDesc rest)
                (rest.drop (collectDesc rest).length)).2 = n := ⟨_, rfl⟩
            rw [hn] at h2 ⊢
            rw [show n + 1 + (collectDesc rest).length =
                (n + (collectDesc rest).length) + 1 from by omega]
            rw [List.take_succ_cons]
            have hcolT : collectDesc (rest.take (n + (collectDesc rest).length)) =
                collectDesc rest :=
              collectDesc_take rest (n + (collectDesc rest).length) (by omega)
            have hstep2 := parseLoop_desc_gen k fields descLines
              (rest.take (n + (collectDesc rest).length)) line key value hblf hpf hk
            rw [hstep2, hcolT, drop_take_comm]
            have hih := ih
              (dictInsert fields "Description"
                (pyStrip (joinNl ((descLines ++ (if value == "" then [] else [value]) ++
                  collectDesc rest).map pyStrip))))
              (descLines ++ (if value == "" then [] else [value]) ++ collectDesc rest)
              (rest.drop (collectDesc rest).length)
              (by have := List.length_drop (collectDesc rest).length rest; omega)
              k (by rw [hn]; omega)
            rw [hn] at hih
            rw [hih, hn]
            exact congrArg (Prod.mk _) (by omega)
          · have hkf : (key == "Description") = false := Bool.eq_false_iff.mpr hk
            have hstep : parseLoop (fuel + 1) fields descLines (line :: rest) =
                ((parseLoop fuel (dictInsert fields key (pyStrip value)) descLines rest).1,
                 (parseLoop fuel (dictInsert fields key (pyStrip value)) descLines rest).2 +
                   1) := by
              simp [parseLoop, hblf, hpf, hkf]
            rw [hstep] at h2 ⊢
            simp only [] at h2
            obtain ⟨k, rfl⟩ : ∃ k, fuel₂ = k + 1 := ⟨fuel₂ - 1, by omega⟩
            rw [List.take_succ_cons]
            have hstep2 : parseLoop (k + 1) fields descLines
                (line :: rest.take
                  (parseLoop fuel (dictInsert fields key (pyStrip value)) descLines rest).2) =
                ((parseLoop k (dictInsert fields key (pyStrip value)) descLines
                    (rest.take
                      (parseLoop fuel (dictInsert fields key (pyStrip value))
                        descLines rest).2)).1,
                 (parseLoop k (dictInsert fields key (pyStrip value)) descLines
                    (rest.take
                      (parseLoop fuel (dictInsert fields key (pyStrip value))
                        descLines rest).2)).2 + 1) := by
              simp [parseLoop, hblf, hpf, hkf]
            rw [hstep2]
            have hih := ih (dictInsert fields key (pyStrip value)) descLines rest
              (by omega) k (by omega)
            rw [hih]

/-- C5: parse-header invariants.  The cursor never exceeds the line
count, the unconsumed remainder returned by `parse_header` is exactly the
suffix of the input starting at the cursor, re-parsing only the consumed
prefix reproduces the same field mapping and cursor (so no line at or
after the cursor contributes to the field mapping), and empty input
yields an empty mapping with cursor 0. -/
theorem c5_parse_invariants :
    ∀ lines : List String,
      parseCursor lines ≤ lines.length ∧
      (parse_header lines).2 = lines.drop (parseCursor lines) ∧
      parseFields (lines.take (parseCursor lines)) = parseFields lines ∧
      parseCursor (lines.take (parseCursor lines)) = parseCursor lines ∧
      parseFields ([] : List String) = [] ∧ parseCursor ([] : List String) = 0 := by
  intro lines
  have h1 : parseCursor lines ≤ lines.length := parseLoop_snd_le lines.length [] [] lines
  have hlen : (lines.take (parseCursor lines)).length = parseCursor lines := by
    rw [List.length_take]
    omega
  have h3 := parseLoop_take lines.length [] [] lines (Nat.le_refl _)
    (parseLoop lines.length [] [] lines).2 (Nat.le_refl _)
  refine ⟨h1, rfl, ?_, ?_, rfl, rfl⟩
  · show (parseLoop (lines.take (parseCursor lines)).length [] []
      (lines.take (parseCursor lines))).1 = (parseLoop lines.length [] [] lines).1
    rw [hlen]
    exact congrArg Prod.fst h3
  · show (parseLoop (lines.take (parseCursor lines)).length [] []
      (lines.take (parseCursor lines))).2 = (parseLoop lines.length [] [] lines).2
    rw [hlen]
    exact congrArg Prod.snd h3

end ValidatePatch
